import Mathlib

/-!
Verification of the gNMI file-based config injector
(`plugins/inputs/gnmi/fileConfigInjector.go`).

The Go source is shallowly embedded below.  Go `map[string]V` values are
embedded as association lists `List (String × V)` with unique keys (the
parsed JSON maps cannot carry duplicate keys); `alookup` is Go map
indexing, `amapInsert` is Go map assignment (replace the value of an
existing key in place, otherwise add the binding).  Go slices become
`List`; the one place where the code distinguishes a nil slice from an
empty one (`GetConfigs` checking `f.collectorConfigs == nil`) is embedded
with `Option`.  The final `for _, group := range groupMap` loop iterates a
Go map, whose iteration order is unspecified; it is embedded as
`emitGroups ord` where `ord` ranges over the permutations of the stored
group indices.  `Log.Warnf` calls are embedded by accumulating the
formatted warning strings in the resolution state.
-/

/-- Payload of the lower-case `subscription` struct embedded in
`Subscription` (defined elsewhere in the plugin); the resolver only moves
these values around, so the payload is opaque here. -/
structure subscription where
  payload : String
deriving DecidableEq

/-- Payload of the lower-case `tagSubscription` struct embedded in
`TagSubscription`; opaque to the resolver. -/
structure tagSubscription where
  payload : String
deriving DecidableEq

/-- `Subscription`: an identified shared subscription record. -/
structure Subscription where
  id : String
  sub : subscription
deriving DecidableEq

/-- `TagSubscription`: an identified shared tag-subscription record. -/
structure TagSubscription where
  id : String
  tsub : tagSubscription
deriving DecidableEq

/-- `SharedConfig` (the common-config template / configuration-group
value): the fields the resolver reads and writes — the subscription
sequence, the tag-subscription sequence and the member address list. -/
structure SharedConfig where
  Subscriptions : List subscription
  TagSubscriptions : List tagSubscription
  Addresses : List String
deriving DecidableEq

/-- One `Device` record of the inventory. -/
structure Device where
  DeviceID : String
  Address : String
  Subscriptions : List String
  TagSubscriptions : List String
  SharedConfig : String
  SharedTagGroups : List String
  Tags : List (String × String)
deriving DecidableEq

/-- `DeviceTag`: per-address record of shared-tag-group ids plus local tags. -/
structure DeviceTag where
  sharedTagIds : List String
  tags : List (String × String)
deriving DecidableEq

/-- `InputData`: the parsed inventory document (the two nested
`shared_subscriptions` maps are flattened into two fields). -/
structure InputData where
  sharedSubscriptions : List (String × List Subscription)
  sharedTagSubscriptions : List (String × List TagSubscription)
  sharedCommonConfigs : List (String × SharedConfig)
  sharedTags : List (String × List (String × String))
  devices : List Device
deriving DecidableEq

/-- Go map indexing with comma-ok: the value bound to `k`, if any. -/
def alookup {α : Type} : List (String × α) → String → Option α
  | [], _ => none
  | p :: rest, k => if p.1 = k then some p.2 else alookup rest k

/-- Replace the value at key `k`, keeping every key in place. -/
def amapAdjust {α : Type} (m : List (String × α)) (k : String) (g : α → α) :
    List (String × α) :=
  m.map (fun p => if p.1 = k then (p.1, g p.2) else p)

/-- Go map assignment `m[k] = v`. -/
def amapInsert {α : Type} (m : List (String × α)) (k : String) (v : α) :
    List (String × α) :=
  if (alookup m k).isSome then amapAdjust m k (fun _ => v) else m ++ [(k, v)]

/-- Go's zero `SharedConfig` value (nil slices), produced by indexing
`SharedCommonConfigs` with an absent key. -/
def emptySharedConfig : SharedConfig := ⟨[], [], []⟩

/-- The common-config template the device names, or the zero value
(Go map indexing copies the struct, so groups work on a copy). -/
def templateOf (d : InputData) (dev : Device) : SharedConfig :=
  (alookup d.sharedCommonConfigs dev.SharedConfig).getD emptySharedConfig

/-- `fmt.Sprintf("%v", xs)` for a `[]string`: space-separated in brackets. -/
def goFmtStrings (xs : List String) : String :=
  "[" ++ String.intercalate " " xs ++ "]"

/-- The grouping key
`fmt.Sprintf("%v|%v|%v", device.Subscriptions, device.SharedConfig, device.TagSubscriptions)` —
built from the raw reference lists, not from the resolved sequences. -/
def groupKey (dev : Device) : String :=
  goFmtStrings dev.Subscriptions ++ "|" ++ dev.SharedConfig ++ "|" ++
    goFmtStrings dev.TagSubscriptions

/-- The warning text of `Warnf("Subscription key %s not found in shared subscriptions", key)`. -/
def warnSub (k : String) : String :=
  "Subscription key " ++ k ++ " not found in shared subscriptions"

/-- The warning text of
`Warnf("Tag subscription key %s not found in shared tag subscriptions", key)`. -/
def warnTagSub (k : String) : String :=
  "Tag subscription key " ++ k ++ " not found in shared tag subscriptions"

/-- The first loop of the new-group branch: for each referenced
subscription-group id, append the group's subscriptions to
`thisConfig.Subscriptions` if the id resolves, otherwise record a warning. -/
def subsLoop (dict : List (String × List Subscription))
    (acc : SharedConfig × List String) : List String → SharedConfig × List String
  | [] => acc
  | k :: rest =>
    match alookup dict k with
    | some subs =>
        subsLoop dict
          ({ acc.1 with Subscriptions := acc.1.Subscriptions ++ subs.map (fun s => s.sub) },
           acc.2) rest
    | none => subsLoop dict (acc.1, acc.2 ++ [warnSub k]) rest

/-- The second loop of the new-group branch, symmetric for tag-subscriptions. -/
def tagSubsLoop (dict : List (String × List TagSubscription))
    (acc : SharedConfig × List String) : List String → SharedConfig × List String
  | [] => acc
  | k :: rest =>
    match alookup dict k with
    | some subs =>
        tagSubsLoop dict
          ({ acc.1 with TagSubscriptions := acc.1.TagSubscriptions ++ subs.map (fun s => s.tsub) },
           acc.2) rest
    | none => tagSubsLoop dict (acc.1, acc.2 ++ [warnTagSub k]) rest

/-- The `!exists` branch of `groupDevices`: copy the named template and
append the device's resolvable subscription and tag-subscription
references; also return the warnings it logs. -/
def newGroupConfig (d : InputData) (dev : Device) : SharedConfig × List String :=
  tagSubsLoop d.sharedTagSubscriptions
    (subsLoop d.sharedSubscriptions (templateOf d dev, []) dev.Subscriptions)
    dev.TagSubscriptions

/-- The `DeviceTag` value stored for a device's address. -/
def DeviceTagOf (dev : Device) : DeviceTag := ⟨dev.SharedTagGroups, dev.Tags⟩

/-- Mutable state of the `groupDevices` loop: the inventory pointer, the
group map and tag map under construction, and the warnings logged so far. -/
structure GroupState where
  inventory : InputData
  groupMap : List (String × SharedConfig)
  tagMap : List (String × DeviceTag)
  warnings : List String
deriving DecidableEq

/-- One iteration of the device loop of `groupDevices`. -/
def processDevice (d : InputData) (st : GroupState) (dev : Device) : GroupState :=
  let key := groupKey dev
  let st1 :=
    match alookup st.groupMap key with
    | some _ => st
    | none =>
        let cw := newGroupConfig d dev
        { st with groupMap := st.groupMap ++ [(key, cw.1)],
                  warnings := st.warnings ++ cw.2 }
  let st2 := { st1 with tagMap := amapInsert st1.tagMap dev.Address (DeviceTagOf dev) }
  { st2 with groupMap :=
      (amapAdjust st2.groupMap key
        (fun g => { g with Addresses := g.Addresses ++ [dev.Address] })) }

/-- The device loop of `groupDevices`. -/
def processDevices (d : InputData) (st : GroupState) : List Device → GroupState
  | [] => st
  | dev :: rest => processDevices d (processDevice d st dev) rest

/-- `groupDevices` run on the whole inventory, starting from empty maps. -/
def groupDevicesState (d : InputData) : GroupState :=
  processDevices d ⟨d, [], [], []⟩ d.devices

/-- The stored groups in key-insertion (first-seen) order. -/
def groupList (d : InputData) : List SharedConfig :=
  (groupDevicesState d).groupMap.map Prod.snd

/-- The final `for _, group := range groupMap` loop: emit the stored groups
in the (unspecified) Go map iteration order `ord`, a permutation of the
stored indices. -/
def emitGroups (ord : List Nat) (gs : List SharedConfig) : List SharedConfig :=
  ord.filterMap (fun i => gs[i]?)

/-- The `FileConfigInjector` fields the accessors read.
`collectorConfigs = none` embeds a nil `[]SharedConfig`. -/
structure FileConfigInjector where
  sharedTags : List (String × List (String × String))
  deviceTags : List (String × DeviceTag)
  collectorConfigs : Option (List SharedConfig)
deriving DecidableEq

/-- The zero-value injector: the state before `init` has run. -/
def uninitializedInjector : FileConfigInjector := ⟨[], [], none⟩

/-- The error message of `GetConfigs` on a nil `collectorConfigs`. -/
def notInitializedMsg : String := "gnmi collector configs are not initialized"

/-- `GetConfigs`: returns `(nil, error)` when `collectorConfigs` is nil,
otherwise `(collectorConfigs, nil)`.  The address argument is unused by
the source. -/
def GetConfigs (f : FileConfigInjector) (_addresses : List String) :
    Option (List SharedConfig) × Option String :=
  match f.collectorConfigs with
  | none => (none, some notInitializedMsg)
  | some cs => (some cs, none)

/-- `init` after a successful parse of the inventory `c`: store the shared
tags, the tag map, and the emitted group slice (nil when no group was
appended).  `ord` is the Go map iteration order of the emission loop. -/
def initInjector (c : InputData) (ord : List Nat) : FileConfigInjector :=
  { sharedTags := c.sharedTags
    deviceTags := (groupDevicesState c).tagMap
    collectorConfigs :=
      if (emitGroups ord (groupList c)).isEmpty then none
      else some (emitGroups ord (groupList c)) }

/-- The `for key, value := range src` copy loop of `GetTags`: write every
binding of `src` into the Go map `t`. -/
def mapUnion (t : List (String × String)) : List (String × String) → List (String × String)
  | [] => t
  | p :: rest => mapUnion (amapInsert t p.1 p.2) rest

/-- The shared-tag-group loop of `GetTags`: overlay each referenced group
that exists, in declaration order; missing ids contribute nothing. -/
def sharedTagsFold (stags : List (String × List (String × String)))
    (t : List (String × String)) : List String → List (String × String)
  | [] => t
  | gid :: rest =>
      sharedTagsFold stags
        (match alookup stags gid with
         | some sh => mapUnion t sh
         | none => t) rest

/-- `GetTags`: empty map for an unknown address, otherwise the device's
local tags overlaid with its referenced shared tag groups; the error
component is always nil. -/
def GetTags (f : FileConfigInjector) (address : String) :
    List (String × String) × Option String :=
  match alookup f.deviceTags address with
  | none => ([], none)
  | some dt =>
      (sharedTagsFold f.sharedTags (mapUnion [] dt.tags) dt.sharedTagIds, none)

/-! ### Characterisation of the new-group construction -/

/-- The subscriptions contributed by the resolvable subscription-group
references, in reference order (a dangling id contributes nothing). -/
def resolveSubsList (dict : List (String × List Subscription)) : List String → List subscription
  | [] => []
  | k :: rest =>
      (match alookup dict k with
       | some subs => subs.map (fun s => s.sub)
       | none => []) ++ resolveSubsList dict rest

/-- The tag-subscriptions contributed by the resolvable
tag-subscription-group references, in reference order. -/
def resolveTagSubsList (dict : List (String × List TagSubscription)) :
    List String → List tagSubscription
  | [] => []
  | k :: rest =>
      (match alookup dict k with
       | some subs => subs.map (fun s => s.tsub)
       | none => []) ++ resolveTagSubsList dict rest

/-- The warnings of the subscription loop: one per dangling reference, in order. -/
def subsWarnings (dict : List (String × List Subscription)) : List String → List String
  | [] => []
  | k :: rest =>
      (match alookup dict k with
       | some _ => []
       | none => [warnSub k]) ++ subsWarnings dict rest

/-- The warnings of the tag-subscription loop. -/
def tagSubsWarnings (dict : List (String × List TagSubscription)) : List String → List String
  | [] => []
  | k :: rest =>
      (match alookup dict k with
       | some _ => []
       | none => [warnTagSub k]) ++ tagSubsWarnings dict rest

/-- The effective subscription sequence of a device: the named template's
subscriptions extended with the resolvable references, as §4.1 of the spec
describes the reference resolver. -/
def effectiveSubscriptions (d : InputData) (dev : Device) : List subscription :=
  (templateOf d dev).Subscriptions ++ resolveSubsList d.sharedSubscriptions dev.Subscriptions

/-- The effective tag-subscription sequence of a device. -/
def effectiveTagSubscriptions (d : InputData) (dev : Device) : List tagSubscription :=
  (templateOf d dev).TagSubscriptions ++
    resolveTagSubsList d.sharedTagSubscriptions dev.TagSubscriptions

/-! ### The group map built by the device loop -/

/-- Append one member address to a group value. -/
def withAddr (c : SharedConfig) (a : String) : SharedConfig :=
  { c with Addresses := c.Addresses ++ [a] }

/-- Append a list of member addresses to a group value. -/
def withAddrs (c : SharedConfig) (as : List String) : SharedConfig :=
  { c with Addresses := c.Addresses ++ as }

/-- The addresses of the devices whose grouping key is `k`, in inventory order. -/
def addrsOf (devs : List Device) (k : String) : List String :=
  (devs.filter (fun dv => groupKey dv == k)).map Device.Address

/-- The warnings logged while processing a device list, given the set of
grouping keys already present: a device whose key is new contributes the
warnings of its group construction, a device whose key was seen
contributes nothing. -/
def warningsOf (d : InputData) (seen : List String) : List Device → List String
  | [] => []
  | dev :: rest =>
      if groupKey dev ∈ seen then warningsOf d seen rest
      else (newGroupConfig d dev).2 ++ warningsOf d (seen ++ [groupKey dev]) rest

/-! ### Tag lookup semantics -/

/-- The last binding of `k` in an association list (Go map writes in list
order make the last occurrence win). -/
def lastLookup (m : List (String × String)) (k : String) : Option String :=
  alookup m.reverse k

/-- The value the declared shared tag groups contribute for key `k`:
the value of the last-declared existing group that binds `k`. -/
def sharedOverlayLast (stags : List (String × List (String × String))) :
    List String → String → Option String
  | [], _ => none
  | gid :: rest, k =>
      match sharedOverlayLast stags rest k with
      | some v => some v
      | none => (alookup stags gid).bind (fun sh => lastLookup sh k)

/-- The claim-shaped overlay value: the value of the last-declared
existing shared tag group binding `k` (later declarations override
earlier ones), reading each group map with plain lookup. -/
def sharedOverlay (stags : List (String × List (String × String))) :
    List String → String → Option String
  | [], _ => none
  | gid :: rest, k =>
      match sharedOverlay stags rest k with
      | some v => some v
      | none => (alookup stags gid).bind (fun sh => alookup sh k)

/-- The final tag value of a device per the tag-resolver contract: the
overlay value of its shared tag groups when one binds `k`, otherwise its
device-local tag value. -/
def resolvedTagValue (d : InputData) (dev : Device) (k : String) : Option String :=
  match sharedOverlay d.sharedTags dev.SharedTagGroups k with
  | some v => some v
  | none => alookup dev.Tags k

/-! ### Group membership lemmas -/

/-- Two addresses land in a common emitted configuration group. -/
def inSameGroup (d : InputData) (a b : String) : Prop :=
  ∃ g ∈ groupList d, a ∈ g.Addresses ∧ b ∈ g.Addresses

instance (d : InputData) (a b : String) : Decidable (inSameGroup d a b) :=
  inferInstanceAs (Decidable (∃ g ∈ groupList d, a ∈ g.Addresses ∧ b ∈ g.Addresses))

/-! ### Claim C1 -/

/-- Counterexample inventory for C1: addresses `A` and `B` reference the
distinct dangling subscription-group ids `x` and `y`. -/
def devC1A : Device := ⟨"d1", "A", ["x"], [], "", [], []⟩

def devC1B : Device := ⟨"d2", "B", ["y"], [], "", [], []⟩

def invC1 : InputData := ⟨[], [], [], [], [devC1A, devC1B]⟩

/-- Witness inventory: two devices with equal raw references. -/
def devC1WA : Device := ⟨"w1", "A", ["g1"], [], "", [], []⟩

def devC1WB : Device := ⟨"w2", "B", ["g1"], [], "", [], []⟩

def invC1W : InputData := ⟨[("g1", [⟨"s1", ⟨"p"⟩⟩])], [], [], [], [devC1WA, devC1WB]⟩

/-- Counterexample inventory for C2/C8: two devices with distinct grouping
keys, hence two stored groups. -/
def devC2A : Device := ⟨"d1", "A", ["x"], [], "", [], []⟩

def devC2B : Device := ⟨"d2", "B", ["y"], [], "", [], []⟩

def invC2 : InputData := ⟨[], [], [], [], [devC2A, devC2B]⟩

/-- Witness inventory for C3: the spec's tag-precedence example — local
tag `env=dev`, shared group `stg1` with `env=prod, region=us`. -/
def devC3 : Device := ⟨"d1", "A", [], [], "", ["stg1"], [("env", "dev")]⟩

def invC3 : InputData :=
  ⟨[], [], [], [("stg1", [("env", "prod"), ("region", "us")])], [devC3]⟩

/-- Witness inventory for C5: one device at `10.0.0.1`. -/
def invC5 : InputData :=
  ⟨[("g1", [⟨"s1", ⟨"p1"⟩⟩])], [], [], [], [⟨"d1", "10.0.0.1", ["g1"], [], "", [], []⟩]⟩

/-- The empty inventory. -/
def emptyInventory : InputData := ⟨[], [], [], [], []⟩

/-- Counterexample inventory for C6: device `A` references the two
existing groups `a` and `b`; device `B` references the single dangling id
`"a b"`, whose formatted key collides with `A`'s. -/
def devC6A : Device := ⟨"d1", "A", ["a", "b"], [], "", [], []⟩

def devC6B : Device := ⟨"d2", "B", ["a b"], [], "", [], []⟩

def invC6 : InputData :=
  ⟨[("a", [⟨"a", ⟨"s1"⟩⟩]), ("b", [⟨"b", ⟨"s2"⟩⟩])], [], [], [], [devC6A, devC6B]⟩

/-- Witness inventory for C6: a single device with one dangling reference. -/
def devC6W : Device := ⟨"d1", "A", ["missing"], ["missing"], "", [], []⟩

def invC6W : InputData := ⟨[], [], [], [], [devC6W]⟩

/-- Witness inventory for C7: one device naming template `cc` (which
already holds a subscription) and the shared group `g1`. -/
def devC7 : Device := ⟨"d1", "A", ["g1"], [], "cc", [], []⟩

def invC7 : InputData :=
  ⟨[("g1", [⟨"s1", ⟨"p1"⟩⟩])], [], [("cc", ⟨[⟨"p0"⟩], [], []⟩)], [], [devC7]⟩

/-- Witness inventory for C10: two devices sharing address `A` with
different tags, references and keys. -/
def devC10A : Device := ⟨"d1", "A", ["x"], [], "", ["g1"], [("t", "1")]⟩

def devC10B : Device := ⟨"d2", "A", ["y"], [], "", ["g2"], [("t", "2")]⟩

def invC10 : InputData := ⟨[], [], [], [], [devC10A, devC10B]⟩

/-! ### Association-list lemmas -/

theorem alookup_nil {α : Type} (k : String) : alookup ([] : List (String × α)) k = none := rfl

theorem alookup_cons {α : Type} (p : String × α) (m : List (String × α)) (k : String) :
    alookup (p :: m) k = if p.1 = k then some p.2 else alookup m k := rfl

theorem alookup_append {α : Type} (m l : List (String × α)) (k : String) :
    alookup (m ++ l) k = ((alookup m k).or (alookup l k)) := by
  induction m with
  | nil => simp [alookup]
  | cons p rest ih =>
      by_cases h : p.1 = k
      · simp [alookup_cons, h]
      · simp [alookup_cons, h, ih]

theorem alookup_amapAdjust {α : Type} (m : List (String × α)) (k j : String) (g : α → α) :
    alookup (amapAdjust m k g) j =
      if j = k then (alookup m j).map g else alookup m j := by
  induction m with
  | nil => simp [alookup, amapAdjust]
  | cons p rest ih =>
      by_cases hpk : p.1 = k
      · by_cases hpj : p.1 = j
        · have hjk : j = k := by rw [← hpj, hpk]
          simp [amapAdjust, alookup_cons, hpk, hpj, hjk]
        · have hne : ¬ ((p.1, g p.2).1 = j) := hpj
          simp only [amapAdjust, List.map_cons, if_pos hpk, alookup_cons, if_neg hne,
            if_neg hpj] at ih ⊢
          exact ih
      · by_cases hpj : p.1 = j
        · have hjk : ¬ j = k := fun h => hpk (hpj.trans h)
          simp [amapAdjust, alookup_cons, hpk, hpj, hjk]
        · simp only [amapAdjust, List.map_cons, if_neg hpk, alookup_cons, if_neg hpj] at ih ⊢
          exact ih

theorem alookup_amapInsert {α : Type} (m : List (String × α)) (k j : String) (v : α) :
    alookup (amapInsert m k v) j = if j = k then some v else alookup m j := by
  unfold amapInsert
  by_cases hs : (alookup m k).isSome
  · rw [if_pos hs, alookup_amapAdjust]
    by_cases hjk : j = k
    · subst hjk
      obtain ⟨w, hw⟩ := Option.isSome_iff_exists.mp hs
      simp [hw]
    · simp [hjk]
  · rw [if_neg hs, alookup_append]
    have hmk : alookup m k = none := Option.not_isSome_iff_eq_none.mp hs
    by_cases hjk : j = k
    · subst hjk
      simp [hmk, alookup_cons, alookup_nil]
    · have hkj : ¬ k = j := fun h => hjk h.symm
      simp [alookup_cons, alookup_nil, hjk, hkj]

theorem amapAdjust_keys {α : Type} (m : List (String × α)) (k : String) (g : α → α) :
    (amapAdjust m k g).map Prod.fst = m.map Prod.fst := by
  induction m with
  | nil => rfl
  | cons p rest ih =>
      by_cases hpk : p.1 = k <;> simp [amapAdjust, hpk] at ih ⊢ <;> exact ih

theorem alookup_mem {α : Type} (m : List (String × α)) (k : String) (v : α)
    (h : alookup m k = some v) : (k, v) ∈ m := by
  induction m with
  | nil => simp [alookup] at h
  | cons p rest ih =>
      by_cases hpk : p.1 = k
      · rw [alookup_cons, if_pos hpk] at h
        have : p = (k, v) := by
          rcases p with ⟨a, b⟩
          simp at hpk h
          rw [hpk, h]
        rw [this]
        exact List.mem_cons_self _ _
      · rw [alookup_cons, if_neg hpk] at h
        exact List.mem_cons_of_mem p (ih h)

theorem alookup_eq_none_iff {α : Type} (m : List (String × α)) (k : String) :
    alookup m k = none ↔ k ∉ m.map Prod.fst := by
  induction m with
  | nil => simp [alookup]
  | cons p rest ih =>
      by_cases hpk : p.1 = k
      · simp [alookup_cons, hpk]
      · have hkp : ¬ k = p.1 := fun h => hpk h.symm
        simp [alookup_cons, hpk, hkp, ih]

theorem alookup_isSome_iff {α : Type} (m : List (String × α)) (k : String) :
    (alookup m k).isSome ↔ k ∈ m.map Prod.fst := by
  cases hl : alookup m k with
  | none => simp [(alookup_eq_none_iff m k).mp hl]
  | some v =>
      simp only [Option.isSome_some, true_iff]
      exact List.mem_map.mpr ⟨(k, v), alookup_mem m k v hl, rfl⟩

theorem alookup_of_mem_nodupKeys {α : Type} (m : List (String × α)) (k : String) (v : α)
    (hnd : (m.map Prod.fst).Nodup) (hmem : (k, v) ∈ m) : alookup m k = some v := by
  induction m with
  | nil => simp at hmem
  | cons p rest ih =>
      simp only [List.map_cons, List.nodup_cons] at hnd
      rcases List.mem_cons.mp hmem with h | h
      · rw [← h]
        simp [alookup_cons]
      · have hk : k ∈ rest.map Prod.fst := List.mem_map.mpr ⟨(k, v), h, rfl⟩
        have hpk : ¬ p.1 = k := fun he => hnd.1 (by rw [he]; exact hk)
        rw [alookup_cons, if_neg hpk]
        exact ih hnd.2 h

theorem subsLoop_spec (dict : List (String × List Subscription)) (keys : List String) :
    ∀ acc : SharedConfig × List String,
      subsLoop dict acc keys =
        ({ acc.1 with Subscriptions := acc.1.Subscriptions ++ resolveSubsList dict keys },
         acc.2 ++ subsWarnings dict keys) := by
  induction keys with
  | nil => intro acc; simp [subsLoop, resolveSubsList, subsWarnings]
  | cons k rest ih =>
      intro acc
      rw [subsLoop, resolveSubsList, subsWarnings]
      cases h : alookup dict k with
      | some subs => simp only [h, ih]; simp [List.append_assoc]
      | none => simp only [h, ih]; simp [List.append_assoc]

theorem tagSubsLoop_spec (dict : List (String × List TagSubscription)) (keys : List String) :
    ∀ acc : SharedConfig × List String,
      tagSubsLoop dict acc keys =
        ({ acc.1 with TagSubscriptions := acc.1.TagSubscriptions ++ resolveTagSubsList dict keys },
         acc.2 ++ tagSubsWarnings dict keys) := by
  induction keys with
  | nil => intro acc; simp [tagSubsLoop, resolveTagSubsList, tagSubsWarnings]
  | cons k rest ih =>
      intro acc
      rw [tagSubsLoop, resolveTagSubsList, tagSubsWarnings]
      cases h : alookup dict k with
      | some subs => simp only [h, ih]; simp [List.append_assoc]
      | none => simp only [h, ih]; simp [List.append_assoc]

theorem newGroupConfig_spec (d : InputData) (dev : Device) :
    newGroupConfig d dev =
      ({ Subscriptions := effectiveSubscriptions d dev,
         TagSubscriptions := effectiveTagSubscriptions d dev,
         Addresses := (templateOf d dev).Addresses },
       subsWarnings d.sharedSubscriptions dev.Subscriptions ++
         tagSubsWarnings d.sharedTagSubscriptions dev.TagSubscriptions) := by
  rw [newGroupConfig, subsLoop_spec, tagSubsLoop_spec]
  simp [effectiveSubscriptions, effectiveTagSubscriptions]

theorem withAddrs_nil (c : SharedConfig) : withAddrs c [] = c := by
  simp [withAddrs]

theorem withAddrs_withAddr (c : SharedConfig) (a : String) (as : List String) :
    withAddrs (withAddr c a) as = withAddrs c (a :: as) := by
  simp [withAddrs, withAddr]

theorem processDevice_inventory (d : InputData) (st : GroupState) (dev : Device) :
    (processDevice d st dev).inventory = st.inventory := by
  rw [processDevice]
  cases alookup st.groupMap (groupKey dev) <;> rfl

theorem processDevice_tagMap (d : InputData) (st : GroupState) (dev : Device) :
    (processDevice d st dev).tagMap = amapInsert st.tagMap dev.Address (DeviceTagOf dev) := by
  rw [processDevice]
  cases alookup st.groupMap (groupKey dev) <;> rfl

theorem processDevice_groupMap (d : InputData) (st : GroupState) (dev : Device) (j : String) :
    alookup (processDevice d st dev).groupMap j =
      if j = groupKey dev then
        some (withAddr ((alookup st.groupMap j).getD (newGroupConfig d dev).1) dev.Address)
      else alookup st.groupMap j := by
  rw [processDevice]
  cases hg : alookup st.groupMap (groupKey dev) with
  | some cfg =>
      simp only []
      rw [alookup_amapAdjust]
      by_cases hj : j = groupKey dev
      · subst hj
        simp [hg, withAddr]
      · simp [hj]
  | none =>
      simp only []
      rw [alookup_amapAdjust]
      by_cases hj : j = groupKey dev
      · subst hj
        simp [alookup_append, hg, alookup_cons, withAddr]
      · simp [hj, alookup_append]
        have : ¬ groupKey dev = j := fun h => hj h.symm
        simp [alookup_cons, this, alookup_nil]

theorem processDevice_warnings (d : InputData) (st : GroupState) (dev : Device) :
    (processDevice d st dev).warnings =
      st.warnings ++
        (if (alookup st.groupMap (groupKey dev)).isSome then []
         else (newGroupConfig d dev).2) := by
  rw [processDevice]
  cases hg : alookup st.groupMap (groupKey dev) <;> simp [hg]

theorem processDevice_groupKeys (d : InputData) (st : GroupState) (dev : Device) :
    (processDevice d st dev).groupMap.map Prod.fst =
      st.groupMap.map Prod.fst ++
        (if (alookup st.groupMap (groupKey dev)).isSome then []
         else [groupKey dev]) := by
  rw [processDevice]
  cases hg : alookup st.groupMap (groupKey dev) <;> simp [hg, amapAdjust_keys]

theorem processDevices_inventory (d : InputData) (devs : List Device) :
    ∀ st : GroupState, (processDevices d st devs).inventory = st.inventory := by
  induction devs with
  | nil => intro st; rfl
  | cons dev rest ih =>
      intro st
      rw [processDevices, ih, processDevice_inventory]

theorem processDevices_groupMap (d : InputData) (devs : List Device) :
    ∀ (st : GroupState) (k : String),
      alookup (processDevices d st devs).groupMap k =
        match alookup st.groupMap k with
        | some cfg => some (withAddrs cfg (addrsOf devs k))
        | none =>
          match devs.find? (fun dv => groupKey dv == k) with
          | none => none
          | some dev => some (withAddrs (newGroupConfig d dev).1 (addrsOf devs k)) := by
  induction devs with
  | nil =>
      intro st k
      cases hg : alookup st.groupMap k <;>
        simp [processDevices, hg, addrsOf, withAddrs_nil]
  | cons dev rest ih =>
      intro st k
      rw [processDevices, ih, processDevice_groupMap]
      by_cases hk : k = groupKey dev
      · have hbeq : (groupKey dev == k) = true := by simp [hk]
        have haddrs : addrsOf (dev :: rest) k = dev.Address :: addrsOf rest k := by
          simp [addrsOf, List.filter_cons, hbeq]
        rw [if_pos hk]
        cases hg : alookup st.groupMap k with
        | some cfg => simp [haddrs, withAddrs_withAddr]
        | none => simp [haddrs, withAddrs_withAddr, List.find?_cons, hbeq]
      · have hbeq : (groupKey dev == k) = false := by
          simp
          exact fun h => hk h.symm
        have haddrs : addrsOf (dev :: rest) k = addrsOf rest k := by
          simp [addrsOf, List.filter_cons, hbeq]
        rw [if_neg hk, haddrs]
        cases hg : alookup st.groupMap k with
        | some cfg => simp
        | none => simp [List.find?_cons, hbeq]

theorem groupDevices_groupMap (d : InputData) (k : String) :
    alookup (groupDevicesState d).groupMap k =
      match d.devices.find? (fun dv => groupKey dv == k) with
      | none => none
      | some dev => some (withAddrs (newGroupConfig d dev).1 (addrsOf d.devices k)) := by
  rw [groupDevicesState, processDevices_groupMap]
  rfl

theorem groupDevices_inventory (d : InputData) : (groupDevicesState d).inventory = d := by
  rw [groupDevicesState, processDevices_inventory]

theorem processDevices_tagMap (d : InputData) (devs : List Device) :
    ∀ (st : GroupState) (a : String),
      alookup (processDevices d st devs).tagMap a =
        match devs.reverse.find? (fun dv => dv.Address == a) with
        | some dev => some (DeviceTagOf dev)
        | none => alookup st.tagMap a := by
  induction devs with
  | nil => intro st a; simp [processDevices]
  | cons dev rest ih =>
      intro st a
      rw [processDevices, ih]
      have hrev : (dev :: rest).reverse = rest.reverse ++ [dev] := by simp
      rw [hrev, List.find?_append]
      cases hr : rest.reverse.find? (fun dv => dv.Address == a) with
      | some dv => simp
      | none =>
          simp only [Option.none_or]
          rw [processDevice_tagMap, alookup_amapInsert]
          by_cases ha : a = dev.Address
          · have : (dev.Address == a) = true := by simp [ha]
            simp [List.find?_cons, this, ha]
          · have : (dev.Address == a) = false := by
              simp
              exact fun h => ha h.symm
            simp [List.find?_cons, this, ha]

theorem groupDevices_tagMap (d : InputData) (a : String) :
    alookup (groupDevicesState d).tagMap a =
      match d.devices.reverse.find? (fun dv => dv.Address == a) with
      | some dev => some (DeviceTagOf dev)
      | none => none := by
  rw [groupDevicesState, processDevices_tagMap]
  rfl

theorem processDevices_warnings (d : InputData) (devs : List Device) :
    ∀ st : GroupState,
      (processDevices d st devs).warnings =
        st.warnings ++ warningsOf d (st.groupMap.map Prod.fst) devs := by
  induction devs with
  | nil => intro st; simp [processDevices, warningsOf]
  | cons dev rest ih =>
      intro st
      rw [processDevices, ih, processDevice_warnings, processDevice_groupKeys, warningsOf]
      by_cases hs : (alookup st.groupMap (groupKey dev)).isSome
      · have hmem : groupKey dev ∈ st.groupMap.map Prod.fst :=
          (alookup_isSome_iff _ _).mp hs
        simp [hs, hmem]
      · have hmem : groupKey dev ∉ st.groupMap.map Prod.fst := by
          intro h
          exact hs ((alookup_isSome_iff _ _).mpr h)
        simp [hs, hmem, List.append_assoc]

theorem groupDevices_warnings (d : InputData) :
    (groupDevicesState d).warnings = warningsOf d [] d.devices := by
  rw [groupDevicesState, processDevices_warnings]
  rfl

theorem processDevices_groupKeys_nodup (d : InputData) (devs : List Device) :
    ∀ st : GroupState, (st.groupMap.map Prod.fst).Nodup →
      ((processDevices d st devs).groupMap.map Prod.fst).Nodup := by
  induction devs with
  | nil => intro st h; exact h
  | cons dev rest ih =>
      intro st h
      rw [processDevices]
      refine ih _ ?_
      rw [processDevice_groupKeys]
      by_cases hs : (alookup st.groupMap (groupKey dev)).isSome
      · simpa [hs] using h
      · have hmem : groupKey dev ∉ st.groupMap.map Prod.fst := by
          intro hm
          exact hs ((alookup_isSome_iff _ _).mpr hm)
        simp [hs, List.nodup_append, h, hmem]

theorem groupDevices_groupKeys_nodup (d : InputData) :
    ((groupDevicesState d).groupMap.map Prod.fst).Nodup := by
  rw [groupDevicesState]
  exact processDevices_groupKeys_nodup d d.devices _ (by simp)

theorem lastLookup_eq_alookup (m : List (String × String)) (k : String)
    (hnd : (m.map Prod.fst).Nodup) : lastLookup m k = alookup m k := by
  induction m with
  | nil => rfl
  | cons p rest ih =>
      simp only [List.map_cons, List.nodup_cons] at hnd
      have hstep : lastLookup (p :: rest) k =
          (alookup rest.reverse k).or (alookup [p] k) := by
        rw [lastLookup, List.reverse_cons, alookup_append]
      by_cases hpk : p.1 = k
      · have hna : alookup rest.reverse k = none := by
          rw [alookup_eq_none_iff]
          intro hm
          rw [List.map_reverse, List.mem_reverse] at hm
          exact hnd.1 (hpk ▸ hm)
        rw [hstep, hna, Option.none_or, alookup_cons, if_pos hpk, alookup_cons, if_pos hpk]
      · have hone : alookup [p] k = none := by
          simp [alookup_cons, alookup_nil, hpk]
        rw [hstep, hone, Option.or_none, ← lastLookup, ih hnd.2, alookup_cons, if_neg hpk]

theorem alookup_mapUnion (src : List (String × String)) :
    ∀ (t : List (String × String)) (k : String),
      alookup (mapUnion t src) k =
        match lastLookup src k with
        | some v => some v
        | none => alookup t k := by
  induction src with
  | nil => intro t k; simp [mapUnion, lastLookup, alookup]
  | cons p rest ih =>
      intro t k
      rw [mapUnion, ih]
      have hlast : lastLookup (p :: rest) k =
          match lastLookup rest k with
          | some v => some v
          | none => if p.1 = k then some p.2 else none := by
        rw [lastLookup, List.reverse_cons, alookup_append, ← lastLookup]
        cases lastLookup rest k <;> simp [alookup_cons, alookup_nil]
      rw [hlast]
      cases lastLookup rest k with
      | some v => simp
      | none =>
          simp only []
          rw [alookup_amapInsert]
          by_cases hpk : p.1 = k
          · simp [hpk]
          · have : ¬ k = p.1 := fun h => hpk h.symm
            simp [hpk, this]

theorem alookup_sharedTagsFold (stags : List (String × List (String × String)))
    (ids : List String) :
    ∀ (t : List (String × String)) (k : String),
      alookup (sharedTagsFold stags t ids) k =
        match sharedOverlayLast stags ids k with
        | some v => some v
        | none => alookup t k := by
  induction ids with
  | nil => intro t k; simp [sharedTagsFold, sharedOverlayLast]
  | cons gid rest ih =>
      intro t k
      rw [sharedTagsFold, ih, sharedOverlayLast]
      cases hov : sharedOverlayLast stags rest k with
      | some v => simp
      | none =>
          simp only []
          cases hg : alookup stags gid with
          | some sh =>
              simp only [Option.some_bind, alookup_mapUnion]
          | none => simp

theorem sharedOverlayLast_eq_sharedOverlay
    (stags : List (String × List (String × String))) (ids : List String) (k : String)
    (hwf : ∀ p ∈ stags, ((Prod.snd p).map Prod.fst).Nodup) :
    sharedOverlayLast stags ids k = sharedOverlay stags ids k := by
  induction ids with
  | nil => rfl
  | cons gid rest ih =>
      rw [sharedOverlayLast, sharedOverlay, ih]
      cases sharedOverlay stags rest k with
      | some v => rfl
      | none =>
          simp only []
          cases hg : alookup stags gid with
          | none => rfl
          | some sh =>
              simp only [Option.some_bind]
              exact lastLookup_eq_alookup sh k (hwf (gid, sh) (alookup_mem _ _ _ hg))

theorem GetTags_lookup (f : FileConfigInjector) (address : String) (dt : DeviceTag)
    (hdt : alookup f.deviceTags address = some dt) (k : String) :
    alookup (GetTags f address).1 k =
      match sharedOverlayLast f.sharedTags dt.sharedTagIds k with
      | some v => some v
      | none => lastLookup dt.tags k := by
  rw [GetTags, hdt]
  simp only []
  rw [alookup_sharedTagsFold]
  cases sharedOverlayLast f.sharedTags dt.sharedTagIds k with
  | some v => rfl
  | none =>
      simp only []
      rw [alookup_mapUnion]
      cases lastLookup dt.tags k <;> simp [alookup_nil]

theorem templateOf_addresses (d : InputData) (dev : Device)
    (htA : ∀ p ∈ d.sharedCommonConfigs, (Prod.snd p).Addresses = []) :
    (templateOf d dev).Addresses = [] := by
  rw [templateOf]
  cases hg : alookup d.sharedCommonConfigs dev.SharedConfig with
  | none => rfl
  | some cfg => exact htA (dev.SharedConfig, cfg) (alookup_mem _ _ _ hg)

theorem group_addresses_split (d : InputData) (k : String) (g : SharedConfig)
    (hg : alookup (groupDevicesState d).groupMap k = some g) :
    ∃ dev ∈ d.devices, groupKey dev = k ∧
      g = withAddrs (newGroupConfig d dev).1 (addrsOf d.devices k) := by
  rw [groupDevices_groupMap] at hg
  cases hf : d.devices.find? (fun dv => groupKey dv == k) with
  | none => rw [hf] at hg; cases hg
  | some dev =>
      rw [hf] at hg
      simp only [Option.some.injEq] at hg
      exact ⟨dev, List.mem_of_find?_eq_some hf,
        by simpa using List.find?_some hf, hg.symm⟩

theorem group_addresses (d : InputData) (k : String) (g : SharedConfig)
    (hg : alookup (groupDevicesState d).groupMap k = some g)
    (htA : ∀ p ∈ d.sharedCommonConfigs, (Prod.snd p).Addresses = []) :
    g.Addresses = addrsOf d.devices k := by
  obtain ⟨dev, hdev, hkey, hge⟩ := group_addresses_split d k g hg
  rw [hge, withAddrs, newGroupConfig_spec]
  simp [templateOf_addresses d dev htA]

theorem mem_addrsOf (devs : List Device) (k a : String) :
    a ∈ addrsOf devs k ↔ ∃ dv ∈ devs, groupKey dv = k ∧ dv.Address = a := by
  rw [addrsOf]
  constructor
  · intro h
    obtain ⟨dv, hdv, he⟩ := List.mem_map.mp h
    have hm := List.mem_filter.mp hdv
    exact ⟨dv, hm.1, by simpa using hm.2, he⟩
  · rintro ⟨dv, hdv, hk, ha⟩
    exact List.mem_map.mpr ⟨dv, List.mem_filter.mpr ⟨hdv, by simpa using hk⟩, ha⟩

theorem group_exists (d : InputData) (dev : Device) (hdev : dev ∈ d.devices) :
    ∃ g, alookup (groupDevicesState d).groupMap (groupKey dev) = some g := by
  rw [groupDevices_groupMap]
  cases hf : d.devices.find? (fun dv => groupKey dv == groupKey dev) with
  | some x => exact ⟨_, rfl⟩
  | none =>
      rw [List.find?_eq_none] at hf
      exact absurd (by simp : (groupKey dev == groupKey dev) = true) (hf dev hdev)

theorem mem_groupList_iff (d : InputData) (g : SharedConfig) :
    g ∈ groupList d ↔ ∃ k, alookup (groupDevicesState d).groupMap k = some g := by
  rw [groupList]
  constructor
  · intro hg
    obtain ⟨p, hp, he⟩ := List.mem_map.mp hg
    rcases p with ⟨k, v⟩
    rcases he with rfl
    exact ⟨k, alookup_of_mem_nodupKeys _ _ _ (groupDevices_groupKeys_nodup d) hp⟩
  · rintro ⟨k, hk⟩
    exact List.mem_map.mpr ⟨(k, g), alookup_mem _ _ _ hk, rfl⟩

/-- Claim C1, counterexample: the two devices of `invC1` have identical
effective subscription sequences, identical effective tag-subscription
sequences and the same common-config id, yet they are not placed in the
same configuration group — grouping uses the raw reference lists, not the
effective sequences. -/
theorem C1_counterexample :
    effectiveSubscriptions invC1 devC1A = effectiveSubscriptions invC1 devC1B ∧
    effectiveTagSubscriptions invC1 devC1A = effectiveTagSubscriptions invC1 devC1B ∧
    devC1A.SharedConfig = devC1B.SharedConfig ∧
    devC1A ∈ invC1.devices ∧ devC1B ∈ invC1.devices ∧
    ¬ inSameGroup invC1 devC1A.Address devC1B.Address := by decide

/-- Claim C1 (amended): for an inventory with pairwise-distinct device
addresses and address-free common-config templates, two devices are
placed in the same ConfigurationGroup if and only if their composite
format-string grouping keys — built from the raw subscription-group id
list, the common-config id and the raw tag-subscription-group id list —
are equal. -/
theorem C1_grouping_key (d : InputData) (dev1 dev2 : Device)
    (h1 : dev1 ∈ d.devices) (h2 : dev2 ∈ d.devices)
    (hnd : (d.devices.map Device.Address).Nodup)
    (htA : ∀ p ∈ d.sharedCommonConfigs, (Prod.snd p).Addresses = []) :
    inSameGroup d dev1.Address dev2.Address ↔ groupKey dev1 = groupKey dev2 := by
  constructor
  · rintro ⟨g, hgmem, ha1, ha2⟩
    obtain ⟨k, hk⟩ := (mem_groupList_iff d g).mp hgmem
    rw [group_addresses d k g hk htA] at ha1 ha2
    obtain ⟨dv1, hdv1, hk1, haddr1⟩ := (mem_addrsOf _ _ _).mp ha1
    obtain ⟨dv2, hdv2, hk2, haddr2⟩ := (mem_addrsOf _ _ _).mp ha2
    have e1 : dv1 = dev1 := List.inj_on_of_nodup_map hnd hdv1 h1 haddr1
    have e2 : dv2 = dev2 := List.inj_on_of_nodup_map hnd hdv2 h2 haddr2
    rw [e1] at hk1
    rw [e2] at hk2
    rw [hk1, hk2]
  · intro hkey
    obtain ⟨g, hg⟩ := group_exists d dev1 h1
    refine ⟨g, (mem_groupList_iff d g).mpr ⟨_, hg⟩, ?_, ?_⟩
    · rw [group_addresses d _ g hg htA]
      exact (mem_addrsOf _ _ _).mpr ⟨dev1, h1, rfl, rfl⟩
    · rw [group_addresses d _ g hg htA]
      exact (mem_addrsOf _ _ _).mpr ⟨dev2, h2, hkey.symm, rfl⟩

/-- Claim C1 witness: the amended grouping equivalence instantiated on a
concrete two-device inventory. -/
theorem C1_grouping_key_witness :
    inSameGroup invC1W devC1WA.Address devC1WB.Address ↔
      groupKey devC1WA = groupKey devC1WB :=
  C1_grouping_key invC1W devC1WA devC1WB (by decide) (by decide) (by decide) (by decide)

/-! ### Claim C2 -/

theorem filterMap_getElem_range {α : Type} (gs : List α) :
    (List.range gs.length).filterMap (fun i => gs[i]?) = gs := by
  induction gs with
  | nil => rfl
  | cons x xs ih =>
      rw [List.length_cons, List.range_succ_eq_map, List.filterMap_cons]
      simp only [List.getElem?_cons_zero]
      rw [List.filterMap_map]
      have he : ((fun i => (x :: xs)[i]?) ∘ Nat.succ) = fun i => xs[i]? := by
        funext i
        simp
      rw [he, ih]

theorem emitGroups_perm (ord : List Nat) (gs : List SharedConfig)
    (h : ord.Perm (List.range gs.length)) : (emitGroups ord gs).Perm gs := by
  have h2 := List.Perm.filterMap (fun i => gs[i]?) h
  rw [filterMap_getElem_range] at h2
  exact h2

/-- Claim C2, counterexample: `[1, 0]` is a permitted Go map iteration
order over the two stored groups of `invC2`, and emitting in that order
does not list the groups in first-occurrence order. -/
theorem C2_counterexample :
    List.Perm [1, 0] (List.range (groupList invC2).length) ∧
    emitGroups [1, 0] (groupList invC2) ≠ groupList invC2 := by decide

/-- Claim C2 (amended): the emitted group sequence is a permutation — in
the unspecified Go map iteration order — of the first-seen-ordered stored
groups, and within each group the member addresses appear in inventory
device order (`addrsOf` filters the device list in order). -/
theorem C2_order (d : InputData) (ord : List Nat)
    (hord : ord.Perm (List.range (groupList d).length))
    (htA : ∀ p ∈ d.sharedCommonConfigs, (Prod.snd p).Addresses = []) :
    (emitGroups ord (groupList d)).Perm (groupList d) ∧
    ∀ k g, alookup (groupDevicesState d).groupMap k = some g →
      g.Addresses = addrsOf d.devices k :=
  ⟨emitGroups_perm ord (groupList d) hord,
   fun k g hg => group_addresses d k g hg htA⟩

/-- Claim C2 witness: the amended order statement instantiated on `invC2`
with the reversed iteration order. -/
theorem C2_order_witness :
    (emitGroups [1, 0] (groupList invC2)).Perm (groupList invC2) ∧
    ∀ k g, alookup (groupDevicesState invC2).groupMap k = some g →
      g.Addresses = addrsOf invC2.devices k :=
  C2_order invC2 [1, 0] (by decide) (by decide)

/-! ### Claim C3 -/

theorem find_reverse_unique (devs : List Device) (dev : Device) (a : String)
    (hnd : (devs.map Device.Address).Nodup) (hdev : dev ∈ devs) (ha : dev.Address = a) :
    devs.reverse.find? (fun dv => dv.Address == a) = some dev := by
  cases hf : devs.reverse.find? (fun dv => dv.Address == a) with
  | none =>
      rw [List.find?_eq_none] at hf
      exact absurd (by simp [ha] : (dev.Address == a) = true)
        (hf dev (List.mem_reverse.mpr hdev))
  | some x =>
      have hx : x ∈ devs := List.mem_reverse.mp (List.mem_of_find?_eq_some hf)
      have hax : x.Address = dev.Address := by
        have := List.find?_some hf
        simp at this
        rw [this, ha]
      rw [List.inj_on_of_nodup_map hnd hx hdev hax]

/-- Claim C3: for a device of an inventory with pairwise-distinct
addresses (and well-formed tag maps, i.e. unique keys as JSON maps have),
`GetTags` of its address returns, at every key, the overlay value — the
last-declared existing shared tag group that binds the key wins, and any
shared binding overrides the device-local tag — together with a nil
error. -/
theorem C3_tag_precedence (d : InputData) (ord : List Nat) (dev : Device)
    (hdev : dev ∈ d.devices)
    (hnd : (d.devices.map Device.Address).Nodup)
    (hwt : (dev.Tags.map Prod.fst).Nodup)
    (hws : ∀ p ∈ d.sharedTags, ((Prod.snd p).map Prod.fst).Nodup) :
    (∀ k, alookup (GetTags (initInjector d ord) dev.Address).1 k =
        resolvedTagValue d dev k) ∧
    (GetTags (initInjector d ord) dev.Address).2 = none := by
  have hdt : alookup (initInjector d ord).deviceTags dev.Address = some (DeviceTagOf dev) := by
    have he : (initInjector d ord).deviceTags = (groupDevicesState d).tagMap := rfl
    rw [he, groupDevices_tagMap, find_reverse_unique d.devices dev dev.Address hnd hdev rfl]
  constructor
  · intro k
    rw [GetTags_lookup (initInjector d ord) dev.Address (DeviceTagOf dev) hdt k]
    have hst : (initInjector d ord).sharedTags = d.sharedTags := rfl
    have hids : (DeviceTagOf dev).sharedTagIds = dev.SharedTagGroups := rfl
    have htags : (DeviceTagOf dev).tags = dev.Tags := rfl
    rw [hst, hids, htags,
      sharedOverlayLast_eq_sharedOverlay d.sharedTags dev.SharedTagGroups k hws,
      resolvedTagValue]
    cases sharedOverlay d.sharedTags dev.SharedTagGroups k with
    | some v => rfl
    | none =>
        simp only []
        exact lastLookup_eq_alookup dev.Tags k hwt
  · rw [GetTags, hdt]

/-- Claim C3 witness: the tag-precedence theorem instantiated at the
spec's example, evaluated at key `env`. -/
theorem C3_tag_precedence_witness :
    alookup (GetTags (initInjector invC3 [0]) devC3.Address).1 "env" =
      resolvedTagValue invC3 devC3 "env" :=
  (C3_tag_precedence invC3 [0] devC3 (by decide) (by decide) (by decide) (by decide)).1 "env"

/-! ### Claims C4, C5, C9 -/

/-- Claim C4: querying `GetConfigs` on the zero-value (pre-`init`)
injector returns a nil group list together with the non-nil
"not initialized" error — never empty or default configuration data. -/
theorem C4_uninitialized_error :
    GetConfigs uninitializedInjector [] = (none, some notInitializedMsg) ∧
    notInitializedMsg = "gnmi collector configs are not initialized" :=
  ⟨rfl, rfl⟩

/-- Claim C5: `GetTags` of an address no inventory device carries returns
the empty map and a nil error, for every iteration order of the resolve. -/
theorem C5_unknown_address (d : InputData) (ord : List Nat) (a : String)
    (h : ∀ dev ∈ d.devices, dev.Address ≠ a) :
    GetTags (initInjector d ord) a = ([], none) := by
  have hfind : d.devices.reverse.find? (fun dv => dv.Address == a) = none := by
    rw [List.find?_eq_none]
    intro x hx
    simp
    exact h x (List.mem_reverse.mp hx)
  have hdt : alookup (initInjector d ord).deviceTags a = none := by
    have he : (initInjector d ord).deviceTags = (groupDevicesState d).tagMap := rfl
    rw [he, groupDevices_tagMap, hfind]
  rw [GetTags, hdt]

/-- Claim C5 witness: the spec's example address `10.0.0.99`, absent from
the inventory, yields the empty map and nil error. -/
theorem C5_unknown_address_witness :
    GetTags (initInjector invC5 [0]) "10.0.0.99" = ([], none) :=
  C5_unknown_address invC5 [0] "10.0.0.99" (by decide)

theorem emitGroups_nil (ord : List Nat) : emitGroups ord ([] : List SharedConfig) = [] := by
  induction ord with
  | nil => rfl
  | cons i rest ih => simp [emitGroups, List.filterMap_cons]

/-- Claim C9: on an inventory with no devices, `init` succeeds but stores
a nil group slice, so `GetConfigs` keeps returning the
"not initialized" error. -/
theorem C9_empty_devices (d : InputData) (ord : List Nat) (h : d.devices = []) :
    (initInjector d ord).collectorConfigs = none ∧
    GetConfigs (initInjector d ord) [] = (none, some notInitializedMsg) := by
  have hg : groupList d = [] := by
    rw [groupList, groupDevicesState, h]
    rfl
  have hc : (initInjector d ord).collectorConfigs = none := by
    rw [initInjector]
    simp [hg, emitGroups_nil]
  exact ⟨hc, by simp [GetConfigs, hc]⟩

/-- Claim C9 witness: the empty inventory instance. -/
theorem C9_empty_devices_witness :
    (initInjector emptyInventory []).collectorConfigs = none ∧
    GetConfigs (initInjector emptyInventory []) [] = (none, some notInitializedMsg) :=
  C9_empty_devices emptyInventory [] rfl

/-! ### Claim C6 -/

theorem warningsOf_through (d : InputData) (dev : Device) (post : List Device) :
    ∀ (ps : List Device) (seen : List String),
      (∀ p ∈ ps, groupKey p ≠ groupKey dev) → groupKey dev ∉ seen →
      ∃ w1 w2, warningsOf d seen (ps ++ dev :: post) =
        w1 ++ ((newGroupConfig d dev).2 ++ w2) := by
  intro ps
  induction ps with
  | nil =>
      intro seen hns hnseen
      rw [List.nil_append, warningsOf, if_neg hnseen]
      exact ⟨[], warningsOf d (seen ++ [groupKey dev]) post, by simp⟩
  | cons p rest ih =>
      intro seen hns hnseen
      rw [List.cons_append, warningsOf]
      by_cases hmem : groupKey p ∈ seen
      · rw [if_pos hmem]
        exact ih seen (fun q hq => hns q (List.mem_cons_of_mem p hq)) hnseen
      · rw [if_neg hmem]
        have hnot : groupKey dev ∉ seen ++ [groupKey p] := by
          intro hmm
          rcases List.mem_append.mp hmm with h | h
          · exact hnseen h
          · rw [List.mem_singleton] at h
            exact hns p (List.mem_cons_self p rest) h.symm
        obtain ⟨w1, w2, hw⟩ :=
          ih (seen ++ [groupKey p]) (fun q hq => hns q (List.mem_cons_of_mem p hq)) hnot
        exact ⟨(newGroupConfig d p).2 ++ w1, w2, by rw [hw, List.append_assoc]⟩

theorem mem_subsWarnings (dict : List (String × List Subscription)) (keys : List String)
    (k : String) (hk : k ∈ keys) (hmiss : alookup dict k = none) :
    warnSub k ∈ subsWarnings dict keys := by
  induction keys with
  | nil => simp at hk
  | cons x rest ih =>
      rw [subsWarnings]
      rcases List.mem_cons.mp hk with h | h
      · subst h
        rw [hmiss]
        simp
      · cases alookup dict x <;> simp [ih h]

theorem mem_tagSubsWarnings (dict : List (String × List TagSubscription)) (keys : List String)
    (k : String) (hk : k ∈ keys) (hmiss : alookup dict k = none) :
    warnTagSub k ∈ tagSubsWarnings dict keys := by
  induction keys with
  | nil => simp at hk
  | cons x rest ih =>
      rw [tagSubsWarnings]
      rcases List.mem_cons.mp hk with h | h
      · subst h
        rw [hmiss]
        simp
      · cases alookup dict x <;> simp [ih h]

theorem find_first_key (d : InputData) (pre post : List Device) (dev : Device)
    (hdevs : d.devices = pre ++ dev :: post)
    (hpre : ∀ p ∈ pre, groupKey p ≠ groupKey dev) :
    d.devices.find? (fun dv => groupKey dv == groupKey dev) = some dev := by
  rw [hdevs, List.find?_append]
  have hnone : pre.find? (fun dv => groupKey dv == groupKey dev) = none := by
    rw [List.find?_eq_none]
    intro x hx
    simp
    exact hpre x hx
  rw [hnone, Option.none_or, List.find?_cons_of_pos _ (by simp)]

/-- Claim C6 (amended): a device that is the first in inventory order to
carry its grouping key still yields a configuration group whose sequences
are exactly its effective (resolvable-references-only) sequences, and each
of its dangling references is warned about — a dangling subscription-group
id with the subscription warning, a dangling tag-subscription-group id
with the tag-subscription warning; resolution is total, so no error is
returned.  (Devices whose key was already created by an earlier device
reuse that group and log nothing — see the counterexample.) -/
theorem C6_dangling_reference (d : InputData) (pre post : List Device) (dev : Device)
    (hdevs : d.devices = pre ++ dev :: post)
    (hpre : ∀ p ∈ pre, groupKey p ≠ groupKey dev) (k : String) :
    (k ∈ dev.Subscriptions → alookup d.sharedSubscriptions k = none →
      warnSub k ∈ (groupDevicesState d).warnings) ∧
    (k ∈ dev.TagSubscriptions → alookup d.sharedTagSubscriptions k = none →
      warnTagSub k ∈ (groupDevicesState d).warnings) ∧
    ∃ g, alookup (groupDevicesState d).groupMap (groupKey dev) = some g ∧
      dev.Address ∈ g.Addresses ∧
      g.Subscriptions = effectiveSubscriptions d dev ∧
      g.TagSubscriptions = effectiveTagSubscriptions d dev := by
  have hchunk : ∀ w ∈ (newGroupConfig d dev).2, w ∈ (groupDevicesState d).warnings := by
    rw [groupDevices_warnings]
    obtain ⟨w1, w2, hw⟩ :=
      warningsOf_through d dev post pre [] hpre (List.not_mem_nil (groupKey dev))
    rw [← hdevs] at hw
    rw [hw]
    intro w hwmem
    exact List.mem_append_right w1 (List.mem_append_left w2 hwmem)
  refine ⟨?_, ?_, ?_⟩
  · intro hk hmiss
    refine hchunk _ ?_
    rw [newGroupConfig_spec]
    exact List.mem_append_left _
      (mem_subsWarnings d.sharedSubscriptions dev.Subscriptions k hk hmiss)
  · intro hk hmiss
    refine hchunk _ ?_
    rw [newGroupConfig_spec]
    exact List.mem_append_right _
      (mem_tagSubsWarnings d.sharedTagSubscriptions dev.TagSubscriptions k hk hmiss)
  · have hdev : dev ∈ d.devices := by rw [hdevs]; simp
    rw [groupDevices_groupMap, find_first_key d pre post dev hdevs hpre]
    refine ⟨_, rfl, ?_, ?_, ?_⟩
    · rw [withAddrs]
      refine List.mem_append_right _ ?_
      exact (mem_addrsOf _ _ _).mpr ⟨dev, hdev, rfl, rfl⟩
    · rw [withAddrs, newGroupConfig_spec]
    · rw [withAddrs, newGroupConfig_spec]

/-- Claim C6, counterexample: device `B` of `invC6` references the
dangling subscription-group id `"a b"`, yet resolution logs no warning at
all, and the group holding `B` is not built from `B`'s resolvable
references (its subscription sequence is non-empty although `B` resolves
nothing): `fmt.Sprintf` collapses `["a", "b"]` and `["a b"]` to the same
grouping key, so `B` silently joins `A`'s group. -/
theorem C6_counterexample :
    "a b" ∈ devC6B.Subscriptions ∧
    alookup invC6.sharedSubscriptions "a b" = none ∧
    devC6B ∈ invC6.devices ∧
    (groupDevicesState invC6).warnings = [] ∧
    ∀ g ∈ groupList invC6, devC6B.Address ∈ g.Addresses →
      g.Subscriptions ≠ effectiveSubscriptions invC6 devC6B := by decide

/-- Claim C6 witness: the amended dangling-reference statement at a
concrete one-device inventory whose device carries both a dangling
subscription-group and a dangling tag-subscription-group reference, with
both warning conclusions discharged. -/
theorem C6_dangling_reference_witness :
    warnSub "missing" ∈ (groupDevicesState invC6W).warnings ∧
    warnTagSub "missing" ∈ (groupDevicesState invC6W).warnings ∧
    ∃ g, alookup (groupDevicesState invC6W).groupMap (groupKey devC6W) = some g ∧
      devC6W.Address ∈ g.Addresses ∧
      g.Subscriptions = effectiveSubscriptions invC6W devC6W ∧
      g.TagSubscriptions = effectiveTagSubscriptions invC6W devC6W :=
  have h := C6_dangling_reference invC6W [] [] devC6W rfl (by decide) "missing"
  ⟨h.1 (by decide) (by decide), h.2.1 (by decide) (by decide), h.2.2⟩

/-! ### Claim C7 -/

/-- Claim C7: resolution leaves every `shared_common_configs` entry of the
inventory unchanged (the loop never writes through the inventory pointer),
and every stored group's sequences are the named template's sequences —
looked up in the unchanged inventory — with the per-device resolved
subscriptions appended onto the copy. -/
theorem C7_template_copy (d : InputData) (k : String) (g : SharedConfig)
    (hg : alookup (groupDevicesState d).groupMap k = some g) :
    (groupDevicesState d).inventory.sharedCommonConfigs = d.sharedCommonConfigs ∧
    ∃ dev ∈ d.devices, groupKey dev = k ∧
      g.Subscriptions = (templateOf d dev).Subscriptions ++
        resolveSubsList d.sharedSubscriptions dev.Subscriptions ∧
      g.TagSubscriptions = (templateOf d dev).TagSubscriptions ++
        resolveTagSubsList d.sharedTagSubscriptions dev.TagSubscriptions ∧
      g.Addresses = (templateOf d dev).Addresses ++ addrsOf d.devices k := by
  refine ⟨by rw [groupDevices_inventory], ?_⟩
  obtain ⟨dev, hdev, hkey, hge⟩ := group_addresses_split d k g hg
  refine ⟨dev, hdev, hkey, ?_, ?_, ?_⟩
  · rw [hge, withAddrs, newGroupConfig_spec]
    rfl
  · rw [hge, withAddrs, newGroupConfig_spec]
    rfl
  · rw [hge, withAddrs, newGroupConfig_spec]

/-- Claim C7 witness: the template-copy statement at a concrete inventory
whose template already carries a subscription. -/
theorem C7_template_copy_witness :
    (groupDevicesState invC7).inventory.sharedCommonConfigs = invC7.sharedCommonConfigs ∧
    ∃ dev ∈ invC7.devices, groupKey dev = groupKey devC7 ∧
      (⟨[⟨"p0"⟩, ⟨"p1"⟩], [], ["A"]⟩ : SharedConfig).Subscriptions =
        (templateOf invC7 dev).Subscriptions ++
          resolveSubsList invC7.sharedSubscriptions dev.Subscriptions ∧
      (⟨[⟨"p0"⟩, ⟨"p1"⟩], [], ["A"]⟩ : SharedConfig).TagSubscriptions =
        (templateOf invC7 dev).TagSubscriptions ++
          resolveTagSubsList invC7.sharedTagSubscriptions dev.TagSubscriptions ∧
      (⟨[⟨"p0"⟩, ⟨"p1"⟩], [], ["A"]⟩ : SharedConfig).Addresses =
        (templateOf invC7 dev).Addresses ++ addrsOf invC7.devices (groupKey devC7) :=
  C7_template_copy invC7 (groupKey devC7) ⟨[⟨"p0"⟩, ⟨"p1"⟩], [], ["A"]⟩ (by decide)

/-! ### Claim C8 -/

/-- Claim C8, counterexample: `[0, 1]` and `[1, 0]` are both permitted Go
map iteration orders for the two stored groups of `invC2`, and the two
resolves emit the groups in different sequence order — resolving the same
inventory twice need not yield the same group sequence. -/
theorem C8_counterexample :
    List.Perm [0, 1] (List.range (groupList invC2).length) ∧
    List.Perm [1, 0] (List.range (groupList invC2).length) ∧
    emitGroups [0, 1] (groupList invC2) ≠ emitGroups [1, 0] (groupList invC2) := by decide

/-- Claim C8 (amended): two resolves of the same inventory yield group
sequences that are permutations of each other (each group identical,
member order included) and identical tag indexes and shared-tag state;
only the sequence order may differ, because Go map iteration order is
unspecified. -/
theorem C8_two_resolves (d : InputData) (ord1 ord2 : List Nat)
    (h1 : ord1.Perm (List.range (groupList d).length))
    (h2 : ord2.Perm (List.range (groupList d).length)) :
    (emitGroups ord1 (groupList d)).Perm (emitGroups ord2 (groupList d)) ∧
    (initInjector d ord1).deviceTags = (initInjector d ord2).deviceTags ∧
    (initInjector d ord1).sharedTags = (initInjector d ord2).sharedTags :=
  ⟨(emitGroups_perm ord1 (groupList d) h1).trans (emitGroups_perm ord2 (groupList d) h2).symm,
   rfl, rfl⟩

/-- Claim C8 witness: the amended idempotence statement on `invC2` with
two different iteration orders. -/
theorem C8_two_resolves_witness :
    (emitGroups [0, 1] (groupList invC2)).Perm (emitGroups [1, 0] (groupList invC2)) ∧
    (initInjector invC2 [0, 1]).deviceTags = (initInjector invC2 [1, 0]).deviceTags ∧
    (initInjector invC2 [0, 1]).sharedTags = (initInjector invC2 [1, 0]).sharedTags :=
  C8_two_resolves invC2 [0, 1] [1, 0] (by decide) (by decide)

/-! ### Claim C10 -/

/-- Claim C10: when two devices declare the same address (the second being
the last device with that address), the tag index binds the address to the
later device's shared-tag-group references and local tags, while the
address is a member of both devices' groups — appearing at least twice in
that group's member list when the grouping keys coincide. -/
theorem C10_duplicate_address (d : InputData) (l1 l2 l3 : List Device) (dev1 dev2 : Device)
    (hdevs : d.devices = l1 ++ dev1 :: (l2 ++ dev2 :: l3))
    (haddr : dev1.Address = dev2.Address)
    (hlast : ∀ p ∈ l3, p.Address ≠ dev2.Address) :
    alookup (groupDevicesState d).tagMap dev2.Address = some (DeviceTagOf dev2) ∧
    (∃ g1, alookup (groupDevicesState d).groupMap (groupKey dev1) = some g1 ∧
      dev2.Address ∈ g1.Addresses) ∧
    (∃ g2, alookup (groupDevicesState d).groupMap (groupKey dev2) = some g2 ∧
      dev2.Address ∈ g2.Addresses) ∧
    (groupKey dev1 = groupKey dev2 →
      ∀ g, alookup (groupDevicesState d).groupMap (groupKey dev1) = some g →
        2 ≤ g.Addresses.count dev2.Address) := by
  have hd1 : dev1 ∈ d.devices := by rw [hdevs]; simp
  have hd2 : dev2 ∈ d.devices := by rw [hdevs]; simp
  have htag : alookup (groupDevicesState d).tagMap dev2.Address = some (DeviceTagOf dev2) := by
    rw [groupDevices_tagMap]
    have hrev : d.devices.reverse = l3.reverse ++ dev2 :: (l2.reverse ++ dev1 :: l1.reverse) := by
      rw [hdevs]
      simp
    have h3 : l3.reverse.find? (fun dv => dv.Address == dev2.Address) = none := by
      rw [List.find?_eq_none]
      intro x hx
      simp
      exact hlast x (List.mem_reverse.mp hx)
    rw [hrev, List.find?_append, h3, Option.none_or, List.find?_cons_of_pos _ (by simp)]
  have hmem1 : ∃ g1, alookup (groupDevicesState d).groupMap (groupKey dev1) = some g1 ∧
      dev2.Address ∈ g1.Addresses := by
    obtain ⟨g, hg⟩ := group_exists d dev1 hd1
    obtain ⟨dv, hdv, hkey, hge⟩ := group_addresses_split d (groupKey dev1) g hg
    refine ⟨g, hg, ?_⟩
    rw [hge, withAddrs]
    exact List.mem_append_right _
      ((mem_addrsOf _ _ _).mpr ⟨dev1, hd1, rfl, haddr⟩)
  have hmem2 : ∃ g2, alookup (groupDevicesState d).groupMap (groupKey dev2) = some g2 ∧
      dev2.Address ∈ g2.Addresses := by
    obtain ⟨g, hg⟩ := group_exists d dev2 hd2
    obtain ⟨dv, hdv, hkey, hge⟩ := group_addresses_split d (groupKey dev2) g hg
    refine ⟨g, hg, ?_⟩
    rw [hge, withAddrs]
    exact List.mem_append_right _
      ((mem_addrsOf _ _ _).mpr ⟨dev2, hd2, rfl, rfl⟩)
  refine ⟨htag, hmem1, hmem2, ?_⟩
  intro hkeq g hg
  obtain ⟨dv, hdv, hkey, hge⟩ := group_addresses_split d (groupKey dev1) g hg
  rw [hge, withAddrs]
  simp only [List.count_append]
  have hcnt : 2 ≤ (addrsOf d.devices (groupKey dev1)).count dev2.Address := by
    rw [hdevs, addrsOf]
    have hb1 : (groupKey dev1 == groupKey dev1) = true := by simp
    have hb2 : (groupKey dev2 == groupKey dev1) = true := by simp [hkeq]
    rw [List.filter_append, List.filter_cons, List.filter_append, List.filter_cons,
      hb1, hb2]
    simp only [if_true]
    rw [List.map_append, List.map_cons, List.map_append, List.map_cons]
    simp only [List.count_append, List.count_cons, haddr]
    simp
    omega
  omega

/-- Claim C10 witness: the duplicate-address statement at a concrete
two-device inventory sharing the address `A`. -/
theorem C10_duplicate_address_witness :
    alookup (groupDevicesState invC10).tagMap devC10B.Address = some (DeviceTagOf devC10B) ∧
    (∃ g1, alookup (groupDevicesState invC10).groupMap (groupKey devC10A) = some g1 ∧
      devC10B.Address ∈ g1.Addresses) ∧
    (∃ g2, alookup (groupDevicesState invC10).groupMap (groupKey devC10B) = some g2 ∧
      devC10B.Address ∈ g2.Addresses) ∧
    (groupKey devC10A = groupKey devC10B →
      ∀ g, alookup (groupDevicesState invC10).groupMap (groupKey devC10A) = some g →
        2 ≤ g.Addresses.count devC10B.Address) :=
  C10_duplicate_address invC10 [] [] [] devC10A devC10B rfl rfl (by decide)
